import Mathlib

/-!
Verification of supabase-scoped-clients against its specification.

This file contains a shallow embedding of the repository's core logic:

* `generate_token` (src/supabase_scoped_clients/core/token.py) — JWT claim
  construction and validation.  The external `pyjwt.encode`/`decode` pair is
  treated as an inverse pair, so `generate_token` here returns the claim
  payload that the source passes to `pyjwt.encode`; statements about "the
  decoded token" are statements about this payload.
* the single-flight refresh guard of `ScopedClient._ensure_valid_token`
  (src/supabase_scoped_clients/scoped_client.py) and
  `AsyncScopedClient._ensure_valid_token`
  (src/supabase_scoped_clients/async_scoped_client.py), both as a sequential
  function and as a fine-grained interleaving machine for concurrency claims.
* the delegation surfaces of both wrappers.
* `TokenRefreshProxy` (src/supabase_scoped_clients/infrastructure/proxy.py).

Machine integers do not overflow in the Python source, so timestamps are
modelled as `Int` and counters as `Nat`.
-/

/-! ## JSON claim values and Python dict operations

A JWT payload in the source is a Python `dict[str, Any]`.  Claims used by the
library are strings and integers; other custom claim values are irrelevant to
the claims under verification, so `JVal` carries strings and integers (an
arbitrary custom value can be represented by an arbitrary member). -/

inductive JVal where
  | str (v : String)
  | int (v : Int)
deriving DecidableEq, Repr

/-- A Python dict with string keys, as an association list with unique keys in
insertion order. -/
abbrev Payload := List (String × JVal)

/-- Python dict item assignment `d[k] = v`: overwrites in place if the key is
present, otherwise appends at the end. -/
def dict_set (d : Payload) (k : String) (v : JVal) : Payload :=
  match d with
  | [] => [(k, v)]
  | (k', v') :: rest => if k' = k then (k', v) :: rest else (k', v') :: dict_set rest k v

/-- Python `d.update(entries)`: item assignment for each entry in order. -/
def dict_update (d : Payload) (entries : Payload) : Payload :=
  entries.foldl (fun acc kv => dict_set acc kv.1 kv.2) d

/-- Python `d[k]` / `d.get(k)` lookup. -/
def dict_get (d : Payload) (k : String) : Option JVal :=
  match d with
  | [] => none
  | (k', v) :: rest => if k' = k then some v else dict_get rest k

/-! ## Configuration and errors -/

/-- `Config` (src/supabase_scoped_clients/config.py): the three settings, as
the strings held by a validated config object.  (Pydantic URL validation and
environment loading are outside the claims under verification.) -/
structure Config where
  supabase_url : String
  supabase_key : String
  supabase_jwt_secret : String
deriving DecidableEq, Repr

/-- The exception kinds raised by the embedded code
(src/supabase_scoped_clients/core/exceptions.py): `TokenError` from
`generate_token`, `ClientError` from client construction. -/
inductive LibError where
  | tokenError (message : String)
  | clientError (message : String)
deriving DecidableEq, Repr

/-! ## Credential minter -/

/-- Python truthiness test `not user_id or not user_id.strip()`
(token.py line 35): true iff the string is empty or all-whitespace
(`s.strip()` is empty exactly when every character is whitespace).
Phrased on the character list so that it evaluates by kernel reduction. -/
def is_blank (s : String) : Bool :=
  s.data.isEmpty || s.data.all Char.isWhitespace

/-- `generate_token` (src/supabase_scoped_clients/core/token.py lines 12-61).

`iat` stands for `int(datetime.now(tz=timezone.utc).timestamp())`: the
generation timestamp is an input of the model.  The returned payload is the
dict passed to `pyjwt.encode`; signing and base64 encoding are external
(library) code, treated as invertible, so the payload is what the token
decodes to. -/
def generate_token (config : Config) (user_id : String)
    (role : String := "authenticated") (expiry_seconds : Int := 3600)
    (custom_claims : Payload := []) (iat : Int := 0) :
    Except LibError Payload :=
  if is_blank user_id then
    .error (.tokenError "user_id cannot be empty")
  else if expiry_seconds ≤ 0 then
    .error (.tokenError "expiry must be positive")
  else
    let exp : Int := iat + expiry_seconds
    -- payload = {}; payload.update(custom_claims or skip); payload.update({...})
    let payload : Payload := dict_update [] custom_claims
    let payload := dict_update payload
      [("sub", .str user_id),
       ("role", .str role),
       ("aud", .str "authenticated"),
       ("iss", .str (config.supabase_url ++ "/auth/v1")),
       ("iat", .int iat),
       ("exp", .int exp)]
    .ok payload

/-! ### Dict lemmas -/

theorem dict_get_set_self (d : Payload) (k : String) (v : JVal) :
    dict_get (dict_set d k v) k = some v := by
  induction d with
  | nil => simp [dict_set, dict_get]
  | cons hd tl ih =>
    obtain ⟨k', v'⟩ := hd
    by_cases h : k' = k
    · simp [dict_set, dict_get, h]
    · simp [dict_set, dict_get, h, ih]

theorem dict_get_set_other (d : Payload) (k k' : String) (v : JVal)
    (h : k' ≠ k) : dict_get (dict_set d k v) k' = dict_get d k' := by
  induction d with
  | nil => simp [dict_set, dict_get, Ne.symm h]
  | cons hd tl ih =>
    obtain ⟨k₀, v₀⟩ := hd
    by_cases h0 : k₀ = k
    · subst h0
      simp [dict_set, dict_get, Ne.symm h]
    · by_cases h1 : k₀ = k'
      · subst h1
        simp [dict_set, dict_get, h0]
      · simp [dict_set, dict_get, h0, h1, ih]

/-- The value of each of the six required claims in the final payload,
independent of what the custom-claims pass wrote. -/
theorem generate_token_required_claims (config : Config) (user_id : String)
    (role : String) (expiry_seconds : Int) (custom_claims : Payload) (iat : Int)
    (h1 : is_blank user_id = false) (h2 : 0 < expiry_seconds) :
    ∃ p, generate_token config user_id role expiry_seconds custom_claims iat = .ok p ∧
      dict_get p "sub" = some (.str user_id) ∧
      dict_get p "role" = some (.str role) ∧
      dict_get p "aud" = some (.str "authenticated") ∧
      dict_get p "iss" = some (.str (config.supabase_url ++ "/auth/v1")) ∧
      dict_get p "iat" = some (.int iat) ∧
      dict_get p "exp" = some (.int (iat + expiry_seconds)) := by
  have h2' : ¬ expiry_seconds ≤ 0 := not_le.mpr h2
  refine ⟨dict_update (dict_update [] custom_claims)
      [("sub", .str user_id),
       ("role", .str role),
       ("aud", .str "authenticated"),
       ("iss", .str (config.supabase_url ++ "/auth/v1")),
       ("iat", .int iat),
       ("exp", .int (iat + expiry_seconds))], ?_, ?_, ?_, ?_, ?_, ?_, ?_⟩
  · simp [generate_token, h1, h2']
  all_goals
    simp only [dict_update, List.foldl]
    simp [dict_get_set_self, dict_get_set_other]

example : is_blank "" = true := by decide
example : is_blank "   " = true := by decide
example : is_blank "u1" = false := by decide

/-! ## Single-flight refresh guard: sequential behaviour

Per-wrapper refresh bookkeeping shared by `ScopedClient`
(src/supabase_scoped_clients/scoped_client.py) and `AsyncScopedClient`
(src/supabase_scoped_clients/async_scoped_client.py).  `client_gen` counts the
client instances successfully installed (the sync wrapper's recreate
strategy), `regen_count` counts the regeneration attempts begun — the
instrumentation the repository's own tests use by monkeypatching
`_create_client` with a counting wrapper. -/

structure GuardState where
  token_exp : Int
  client_gen : Nat
  regen_count : Nat
deriving DecidableEq, Repr

/-- `AsyncScopedClient._needs_refresh` (async_scoped_client.py lines 118-120):
`time.time() + self._refresh_threshold >= self._token_exp`.  The sync
wrapper's fast path (scoped_client.py line 96) tests the negation. -/
def needs_refresh (now refresh_threshold token_exp : Int) : Bool :=
  decide (now + refresh_threshold ≥ token_exp)

/-- `ScopedClient._create_client` (scoped_client.py lines 66-86) with explicit
failure injection for its two fallible calls: `generate_token` (signing
failure, `sign_fails`) and the external `create_client` constructor
(`create_fails`).  The pair result carries the post-call object state — a
Python exception leaves prior attribute mutations in place, so the state is
returned alongside the raised error.  Note the source updates
`self._token_exp` (line 76) before constructing the new client (line 82). -/
def create_client (now expiry_seconds : Int) (sign_fails create_fails : Bool)
    (s : GuardState) : GuardState × Option LibError :=
  let s := { s with regen_count := s.regen_count + 1 }
  if sign_fails then
    (s, some (.tokenError "signing failure"))
  else
    -- self._token_exp = int(time.time()) + self._expiry_seconds
    let s := { s with token_exp := now + expiry_seconds }
    if create_fails then
      (s, some (.clientError "client construction failure"))
    else
      ({ s with client_gen := s.client_gen + 1 }, none)

/-- `ScopedClient._ensure_valid_token` (scoped_client.py lines 88-103) as run
by a single caller, with time frozen at `now` for the duration of the call
(both `int(time.time())` reads return `now`).  The third component records
whether the lock was acquired (the slow path was entered). -/
def ensure_valid_token (now refresh_threshold expiry_seconds : Int)
    (sign_fails create_fails : Bool) (s : GuardState) :
    GuardState × Option LibError × Bool :=
  if now + refresh_threshold < s.token_exp then
    (s, none, false)
  else
    -- with self._lock: double-check after acquiring the lock
    if now + refresh_threshold ≥ s.token_exp then
      let (s', err) := create_client now expiry_seconds sign_fails create_fails s
      (s', err, true)
    else
      (s, none, true)

/-- C7: the staleness test used by both wrappers returns true iff
`now + refreshThresholdSeconds >= currentExpiryEpochSeconds`; and with stored
expiry `now + 3600` and threshold 60, `_ensure_valid_token` performs zero
regenerations and returns on the fast path without acquiring the lock. -/
theorem stale_predicate_and_fresh_fast_path (now th exp ex : Int)
    (s : GuardState) (sf cf : Bool) (h : s.token_exp = now + 3600) :
    (needs_refresh now th exp = true ↔ now + th ≥ exp) ∧
    ensure_valid_token now 60 ex sf cf s = (s, none, false) := by
  constructor
  · simp [needs_refresh]
  · have hfresh : now + 60 < s.token_exp := by omega
    simp [ensure_valid_token, hfresh]

theorem stale_predicate_and_fresh_fast_path_witness :
    (needs_refresh 0 60 100 = true ↔ (0 : Int) + 60 ≥ 100) ∧
    ensure_valid_token 0 60 3600 false false ⟨3600, 1, 0⟩ =
      (⟨3600, 1, 0⟩, none, false) :=
  stale_predicate_and_fresh_fast_path 0 60 100 3600 ⟨3600, 1, 0⟩ false false
    (by decide)

/-- C2 (code bug): with a stale token (`_token_exp = 0` at time 100,
threshold 60), a regeneration whose signing succeeds but whose external
client construction fails raises, yet leaves `_token_exp = 100 + 3600 = 3700`
— the source updates the expiry before the fallible constructor call.  A
subsequent call at time 101 therefore takes the fast path and performs no
retry: no new client is installed (`client_gen` stays 1) and no regeneration
is attempted, contradicting the claimed unchanged-expiry/retry behaviour. -/
theorem refresh_failure_marks_token_fresh :
    ensure_valid_token 100 60 3600 false true ⟨0, 1, 0⟩ =
      (⟨3700, 1, 1⟩, some (.clientError "client construction failure"), true) ∧
    ensure_valid_token 101 60 3600 false false ⟨3700, 1, 1⟩ =
      (⟨3700, 1, 1⟩, none, false) := by
  constructor <;> rfl

/-- In the sign-failure case (the `generate_token` call raises before the
expiry assignment) the bookkeeping is indeed left unchanged, for every state:
the divergence is confined to the external-constructor failure. -/
theorem sign_failure_leaves_exp_unchanged (now ex : Int) (cf : Bool)
    (s : GuardState) :
    (create_client now ex true cf s).1.token_exp = s.token_exp ∧
    (create_client now ex true cf s).2 = some (.tokenError "signing failure") := by
  constructor <;> rfl

theorem sign_failure_leaves_exp_unchanged_witness :
    (create_client 100 3600 true false ⟨0, 1, 0⟩).1.token_exp =
      GuardState.token_exp ⟨0, 1, 0⟩ ∧
    (create_client 100 3600 true false ⟨0, 1, 0⟩).2 =
      some (.tokenError "signing failure") :=
  sign_failure_leaves_exp_unchanged 100 3600 false ⟨0, 1, 0⟩

/-! ## Delegation surfaces

Each delegated operation is embedded as a function from guard state to the
post-call guard state together with the trace of the call: `.check` records a
call to the wrapper's `_ensure_valid_token`, `.forward name` records the
delegation to the underlying external client.  Regeneration is taken to
succeed here (failure behaviour is the subject of the guard sections). -/

inductive DelegEvent where
  | check
  | forward (name : String)
deriving DecidableEq, Repr

/-- A call to `self._ensure_valid_token()` from a delegating method: the guard
state advances and a `.check` event is recorded. -/
def ensure_events (now th ex : Int) (s : GuardState) : GuardState × List DelegEvent :=
  ((ensure_valid_token now th ex false false s).1, [.check])

namespace ScopedClient

/-- `ScopedClient.table` (scoped_client.py lines 105-115). -/
def table (now th ex : Int) (s : GuardState) : GuardState × List DelegEvent :=
  let (s', es) := ensure_events now th ex s
  (s', es ++ [.forward "table"])

/-- `ScopedClient.storage` (scoped_client.py lines 117-125). -/
def storage (now th ex : Int) (s : GuardState) : GuardState × List DelegEvent :=
  let (s', es) := ensure_events now th ex s
  (s', es ++ [.forward "storage"])

/-- `ScopedClient.functions` (scoped_client.py lines 127-135). -/
def functions (now th ex : Int) (s : GuardState) : GuardState × List DelegEvent :=
  let (s', es) := ensure_events now th ex s
  (s', es ++ [.forward "functions"])

/-- `ScopedClient.rpc` (scoped_client.py lines 137-150). -/
def rpc (now th ex : Int) (s : GuardState) : GuardState × List DelegEvent :=
  let (s', es) := ensure_events now th ex s
  (s', es ++ [.forward "rpc"])

/-- `ScopedClient.auth` (scoped_client.py lines 152-160). -/
def auth (now th ex : Int) (s : GuardState) : GuardState × List DelegEvent :=
  let (s', es) := ensure_events now th ex s
  (s', es ++ [.forward "auth"])

/-- `ScopedClient.realtime` (scoped_client.py lines 162-170). -/
def realtime (now th ex : Int) (s : GuardState) : GuardState × List DelegEvent :=
  let (s', es) := ensure_events now th ex s
  (s', es ++ [.forward "realtime"])

/-- `ScopedClient.__getattr__` (scoped_client.py lines 172-192), in the
steady state where `self._client` is set (it is, from `__init__` onwards). -/
def attr_fallback (now th ex : Int) (s : GuardState) (name : String) :
    GuardState × List DelegEvent :=
  let (s', es) := ensure_events now th ex s
  (s', es ++ [.forward name])

end ScopedClient

namespace AsyncScopedClient

/-- `AsyncScopedClient.table` (async_scoped_client.py lines 155-166): the
docstring instructs callers to await `_ensure_valid_token()` first; the
method itself only forwards. -/
def table (s : GuardState) : GuardState × List DelegEvent :=
  (s, [.forward "table"])

/-- `AsyncScopedClient.storage` (async_scoped_client.py lines 168-175). -/
def storage (s : GuardState) : GuardState × List DelegEvent :=
  (s, [.forward "storage"])

/-- `AsyncScopedClient.functions` (async_scoped_client.py lines 177-184). -/
def functions (s : GuardState) : GuardState × List DelegEvent :=
  (s, [.forward "functions"])

/-- `AsyncScopedClient.rpc` (async_scoped_client.py lines 186-200). -/
def rpc (s : GuardState) : GuardState × List DelegEvent :=
  (s, [.forward "rpc"])

/-- `AsyncScopedClient.auth` (async_scoped_client.py lines 202-209). -/
def auth (s : GuardState) : GuardState × List DelegEvent :=
  (s, [.forward "auth"])

/-- `AsyncScopedClient.realtime` (async_scoped_client.py lines 211-218). -/
def realtime (s : GuardState) : GuardState × List DelegEvent :=
  (s, [.forward "realtime"])

/-- `AsyncScopedClient.postgrest` (async_scoped_client.py lines 220-227). -/
def postgrest (s : GuardState) : GuardState × List DelegEvent :=
  (s, [.forward "postgrest"])

/-- `AsyncScopedClient.__getattr__` (async_scoped_client.py lines 229-250),
in the steady state where `self._client` is set. -/
def attr_fallback (s : GuardState) (name : String) :
    GuardState × List DelegEvent :=
  (s, [.forward name])

end AsyncScopedClient

/-- The delegation surface of the sync wrapper: the named accessors plus the
catch-all attribute fallback. -/
inductive SyncOp where
  | table | storage | functions | rpc | auth | realtime | attr (name : String)

/-- The delegation surface of the async wrapper. -/
inductive AsyncOp where
  | table | storage | functions | rpc | auth | realtime | postgrest
  | attr (name : String)

def sync_delegate (op : SyncOp) (now th ex : Int) (s : GuardState) :
    GuardState × List DelegEvent :=
  match op with
  | .table => ScopedClient.table now th ex s
  | .storage => ScopedClient.storage now th ex s
  | .functions => ScopedClient.functions now th ex s
  | .rpc => ScopedClient.rpc now th ex s
  | .auth => ScopedClient.auth now th ex s
  | .realtime => ScopedClient.realtime now th ex s
  | .attr name => ScopedClient.attr_fallback now th ex s name

def async_delegate (op : AsyncOp) (s : GuardState) :
    GuardState × List DelegEvent :=
  match op with
  | .table => AsyncScopedClient.table s
  | .storage => AsyncScopedClient.storage s
  | .functions => AsyncScopedClient.functions s
  | .rpc => AsyncScopedClient.rpc s
  | .auth => AsyncScopedClient.auth s
  | .realtime => AsyncScopedClient.realtime s
  | .postgrest => AsyncScopedClient.postgrest s
  | .attr name => AsyncScopedClient.attr_fallback s name

/-- C3 (counterexample): `AsyncScopedClient.table` on a wrapper whose token is
stale (stored expiry 0) forwards to the underlying client with no call to the
validity check — the trace holds no `.check` event and the guard state is
untouched — contradicting the claim that both wrappers precede every
delegated operation with `_ensure_valid_token`. -/
theorem async_delegation_unguarded :
    async_delegate .table ⟨0, 1, 0⟩ = (⟨0, 1, 0⟩, [.forward "table"]) ∧
    DelegEvent.check ∉ (async_delegate .table ⟨0, 1, 0⟩).2 := by
  constructor
  · rfl
  · simp [async_delegate, AsyncScopedClient.table]

/-- C3 (amended): every delegated operation of the sync `ScopedClient` —
named accessors and the catch-all fallback — calls `_ensure_valid_token`
before forwarding to the underlying client; the async `AsyncScopedClient`'s
delegated operations forward directly, with no validity check and no guard
state change (callers must await the exposed `ensure_valid_token`
explicitly). -/
theorem delegation_guard_sync_only (now th ex : Int) (s : GuardState) :
    (∀ op : SyncOp, ∃ name, sync_delegate op now th ex s =
      ((ensure_valid_token now th ex false false s).1,
        [.check, .forward name])) ∧
    (∀ op : AsyncOp, ∃ name, async_delegate op s = (s, [.forward name])) := by
  constructor
  · intro op
    cases op <;>
      simp [sync_delegate, ScopedClient.table, ScopedClient.storage,
        ScopedClient.functions, ScopedClient.rpc, ScopedClient.auth,
        ScopedClient.realtime, ScopedClient.attr_fallback, ensure_events]
  · intro op
    cases op <;>
      simp [async_delegate, AsyncScopedClient.table, AsyncScopedClient.storage,
        AsyncScopedClient.functions, AsyncScopedClient.rpc,
        AsyncScopedClient.auth, AsyncScopedClient.realtime,
        AsyncScopedClient.postgrest, AsyncScopedClient.attr_fallback]

/-! ## Single-flight refresh guard: concurrent behaviour

A fine-grained interleaving machine for `_ensure_valid_token` run by `K`
concurrent callers of one wrapper instance.  Each caller executes the source
line by line; the scheduler picks which caller advances at each step.  Time is
frozen at `now` for the scenario (the callers invoke simultaneously), and
regeneration succeeds (failure behaviour is covered separately).  The machine
covers both the thread/`threading.Lock` realization (scoped_client.py lines
88-103) and the coroutine/`asyncio.Lock` realization (async_scoped_client.py
lines 136-151): the two have identical structure. -/

inductive Phase where
  | fastCheck
  | awaitLock
  | locked
  | regen
  | unlock (regenerated : Bool)
  | done (regenerated : Bool)
deriving DecidableEq, Repr

def Phase.isDone : Phase → Bool
  | .done _ => true
  | _ => false

/-- Whether a caller in this phase is inside the critical section. -/
def Phase.holdsLock : Phase → Bool
  | .locked => true
  | .regen => true
  | .unlock _ => true
  | _ => false

structure MachineCfg (K : Nat) where
  lock_holder : Option (Fin K)
  token_exp : Int
  regens : Nat
  phase : Fin K → Phase

/-- One caller advances by one atomic step of `_ensure_valid_token`:
fast-path staleness check, lock acquisition (enabled only when the lock is
free), double-check under the lock, regeneration, release.  A caller that is
blocked on the held lock, or has returned, leaves the configuration
unchanged. -/
def thread_step (now th ex : Int) (c : MachineCfg K) (i : Fin K) : MachineCfg K :=
  match c.phase i with
  | .fastCheck =>
      -- if current_time + self._refresh_threshold < self._token_exp: return
      if now + th < c.token_exp then
        { c with phase := Function.update c.phase i (.done false) }
      else
        { c with phase := Function.update c.phase i .awaitLock }
  | .awaitLock =>
      -- with self._lock:  (acquisition succeeds only when the lock is free)
      match c.lock_holder with
      | none => { c with lock_holder := some i,
                         phase := Function.update c.phase i .locked }
      | some _ => c
  | .locked =>
      -- double-check after acquiring the lock
      if now + th ≥ c.token_exp then
        { c with phase := Function.update c.phase i .regen }
      else
        { c with phase := Function.update c.phase i (.unlock false) }
  | .regen =>
      -- self._create_client(): mint + install client, then update expiry
      { c with token_exp := now + ex, regens := c.regens + 1,
               phase := Function.update c.phase i (.unlock true) }
  | .unlock b =>
      { c with lock_holder := none,
               phase := Function.update c.phase i (.done b) }
  | .done _ => c

/-- Run the machine under a schedule (the list of caller indices picked by
the scheduler, in order). -/
def sched_run (now th ex : Int) (c : MachineCfg K) : List (Fin K) → MachineCfg K
  | [] => c
  | i :: rest => sched_run now th ex (thread_step now th ex c i) rest

/-- K callers that invoked `_ensure_valid_token` simultaneously while the
token was stale: each has run its fast-path check, observed staleness, and is
about to contend for the lock. -/
def init_cfg (K : Nat) (exp0 : Int) : MachineCfg K :=
  ⟨none, exp0, 0, fun _ => .awaitLock⟩

/-- Lock consistency: exactly the callers in critical-section phases hold the
lock, and at most one does. -/
def LockInv (c : MachineCfg K) : Prop :=
  (∀ i, (c.phase i).holdsLock = true → c.lock_holder = some i) ∧
  (∀ j, c.lock_holder = some j → (c.phase j).holdsLock = true)

/-- The single-flight invariant: either no regeneration has happened — the
expiry still reads `exp0` and every caller is before its own regeneration
decision — or exactly one has, the expiry reads `now + ex`, one caller (the
regenerator) carries the regeneration credit, and every other caller is on a
path that returns without regenerating. -/
def FlightInv (now th ex exp0 : Int) (c : MachineCfg K) : Prop :=
  LockInv c ∧
  ((c.regens = 0 ∧ c.token_exp = exp0 ∧
      ∀ i, c.phase i = .awaitLock ∨ c.phase i = .locked ∨ c.phase i = .regen) ∨
   (c.regens = 1 ∧ c.token_exp = now + ex ∧
      ∃ w, (c.phase w = .unlock true ∨ c.phase w = .done true) ∧
        ∀ i, i ≠ w → (c.phase i = .awaitLock ∨ c.phase i = .locked ∨
          c.phase i = .unlock false ∨ c.phase i = .done false)))

theorem flight_inv_init (K : Nat) (now th ex exp0 : Int) :
    FlightInv now th ex exp0 (init_cfg K exp0) := by
  refine ⟨⟨?_, ?_⟩, Or.inl ⟨rfl, rfl, ?_⟩⟩
  · intro i h
    simp [init_cfg, Phase.holdsLock] at h
  · intro j h
    simp [init_cfg] at h
  · intro i
    exact Or.inl rfl

theorem flight_inv_step {K : Nat} (now th ex exp0 : Int)
    (hstale : now + th ≥ exp0) (hlt : th < ex) {c : MachineCfg K}
    (hinv : FlightInv now th ex exp0 c) (i : Fin K) :
    FlightInv now th ex exp0 (thread_step now th ex c i) := by
  obtain ⟨⟨hl1, hl2⟩, hcase⟩ := hinv
  cases hp : c.phase i with
  | fastCheck =>
    exfalso
    rcases hcase with ⟨-, -, hph⟩ | ⟨-, -, w, hw, hother⟩
    · rcases hph i with h | h | h <;> simp [hp] at h
    · by_cases hiw : i = w
      · subst hiw
        rcases hw with h | h <;> simp [hp] at h
      · rcases hother i hiw with h | h | h | h <;> simp [hp] at h
  | awaitLock =>
    cases hlh : c.lock_holder with
    | some j =>
      simp only [thread_step, hp, hlh]
      exact ⟨⟨hl1, hl2⟩, hcase⟩
    | none =>
      simp only [thread_step, hp, hlh]
      constructor
      · constructor
        · intro k hk
          by_cases hki : k = i
          · simp [hki]
          · simp only [Function.update_noteq hki] at hk
            exact absurd (hl1 k hk) (by simp [hlh])
        · intro j hj
          simp only at hj
          cases hj
          simp [Phase.holdsLock]
      · rcases hcase with ⟨h0, hexp, hph⟩ | ⟨h1, hexp, w, hw, hother⟩
        · refine Or.inl ⟨h0, hexp, ?_⟩
          intro k
          by_cases hki : k = i
          · subst hki
            simp [Function.update_same]
          · simp only [Function.update_noteq hki]
            exact hph k
        · refine Or.inr ⟨h1, hexp, w, ?_, ?_⟩
          · have hiw : i ≠ w := by
              intro hiw
              subst hiw
              rcases hw with h | h <;> rw [hp] at h <;> simp at h
            simpa [Function.update_noteq (Ne.symm hiw)] using hw
          · intro k hkw
            by_cases hki : k = i
            · subst hki
              simp [Function.update_same]
            · simp only [Function.update_noteq hki]
              exact hother k hkw
  | locked =>
    have hli : c.lock_holder = some i := hl1 i (by simp [hp, Phase.holdsLock])
    rcases hcase with ⟨h0, hexp, hph⟩ | ⟨h1, hexp, w, hw, hother⟩
    · -- no regeneration yet: the double-check still sees the stale expiry
      simp only [thread_step, hp, hexp, ge_iff_le, if_pos hstale]
      refine ⟨⟨?_, ?_⟩, Or.inl ⟨h0, rfl, ?_⟩⟩
      · intro k hk
        by_cases hki : k = i
        · simp [hki, hli]
        · simp only [Function.update_noteq hki] at hk
          exact hl1 k hk
      · intro j hj
        simp only at hj
        rw [hli] at hj
        cases hj
        simp [Phase.holdsLock]
      · intro k
        by_cases hki : k = i
        · subst hki
          simp [Function.update_same]
        · simp only [Function.update_noteq hki]
          exact hph k
    · -- after the regeneration: the double-check sees the fresh expiry
      have hfresh : ¬ now + th ≥ c.token_exp := by
        rw [hexp]
        omega
      simp only [thread_step, hp, if_neg hfresh]
      have hiw : i ≠ w := by
        intro hiw
        subst hiw
        rcases hw with h | h <;> rw [hp] at h <;> simp at h
      refine ⟨⟨?_, ?_⟩, Or.inr ⟨h1, hexp, w, ?_, ?_⟩⟩
      · intro k hk
        by_cases hki : k = i
        · simp [hki, hli]
        · simp only [Function.update_noteq hki] at hk
          exact hl1 k hk
      · intro j hj
        simp only at hj
        rw [hli] at hj
        cases hj
        simp [Phase.holdsLock]
      · simpa [Function.update_noteq (Ne.symm hiw)] using hw
      · intro k hkw
        by_cases hki : k = i
        · subst hki
          simp [Function.update_same]
        · simp only [Function.update_noteq hki]
          exact hother k hkw
  | regen =>
    have hli : c.lock_holder = some i := hl1 i (by simp [hp, Phase.holdsLock])
    rcases hcase with ⟨h0, hexp, hph⟩ | ⟨h1, hexp, w, hw, hother⟩
    · -- the regeneration step: flip to the one-regeneration disjunct
      simp only [thread_step, hp]
      refine ⟨⟨?_, ?_⟩, Or.inr ⟨by simp [h0], rfl, i, ?_, ?_⟩⟩
      · intro k hk
        by_cases hki : k = i
        · simp [hki, hli]
        · simp only [Function.update_noteq hki] at hk
          exact hl1 k hk
      · intro j hj
        simp only at hj
        rw [hli] at hj
        cases hj
        simp [Phase.holdsLock]
      · simp [Function.update_same]
      · intro k hki
        simp only [Function.update_noteq hki]
        rcases hph k with h | h | h
        · exact Or.inl h
        · exact absurd (hli.symm.trans (hl1 k (by simp [h, Phase.holdsLock])))
            (by simpa using fun hh => hki hh.symm)
        · exact absurd (hli.symm.trans (hl1 k (by simp [h, Phase.holdsLock])))
            (by simpa using fun hh => hki hh.symm)
    · exfalso
      by_cases hiw : i = w
      · subst hiw
        rcases hw with h | h <;> rw [hp] at h <;> simp at h
      · rcases hother i hiw with h | h | h | h <;> rw [hp] at h <;> simp at h
  | unlock b =>
    have hli : c.lock_holder = some i := hl1 i (by simp [hp, Phase.holdsLock])
    simp only [thread_step, hp]
    rcases hcase with ⟨-, -, hph⟩ | ⟨h1, hexp, w, hw, hother⟩
    · exfalso
      rcases hph i with h | h | h <;> rw [hp] at h <;> simp at h
    · have hlk : ∀ k, (Function.update c.phase i (Phase.done b) k).holdsLock = true →
          (none : Option (Fin K)) = some k := by
        intro k hk
        by_cases hki : k = i
        · subst hki
          simp [Function.update_same, Phase.holdsLock] at hk
        · simp only [Function.update_noteq hki] at hk
          have := (hl1 k hk).symm.trans hli
          cases this
          exact absurd rfl hki
      by_cases hiw : i = w
      · subst hiw
        have hb : b = true := by
          rcases hw with h | h <;> rw [hp] at h
          · cases h; rfl
          · simp at h
        subst hb
        refine ⟨⟨hlk, by simp⟩, Or.inr ⟨h1, hexp, i, ?_, ?_⟩⟩
        · simp [Function.update_same]
        · intro k hki
          simp only [Function.update_noteq hki]
          exact hother k hki
      · have hb : b = false := by
          rcases hother i hiw with h | h | h | h <;> rw [hp] at h <;>
            first
            | (cases h; rfl)
            | simp at h
        subst hb
        refine ⟨⟨hlk, by simp⟩, Or.inr ⟨h1, hexp, w, ?_, ?_⟩⟩
        · simpa [Function.update_noteq (Ne.symm hiw)] using hw
        · intro k hkw
          by_cases hki : k = i
          · subst hki
            simp [Function.update_same]
          · simp only [Function.update_noteq hki]
            exact hother k hkw
  | done b =>
    simp only [thread_step, hp]
    exact ⟨⟨hl1, hl2⟩, hcase⟩

theorem flight_inv_run {K : Nat} (now th ex exp0 : Int)
    (hstale : now + th ≥ exp0) (hlt : th < ex) {c : MachineCfg K}
    (hinv : FlightInv now th ex exp0 c) (sched : List (Fin K)) :
    FlightInv now th ex exp0 (sched_run now th ex c sched) := by
  induction sched generalizing c with
  | nil => exact hinv
  | cons i rest ih =>
    exact ih (flight_inv_step now th ex exp0 hstale hlt hinv i)

/-- C1 (amended): for a wrapper instance whose token is stale
(`now + threshold ≥ stored expiry`) and whose refresh threshold is below the
token validity (`threshold < expiry_seconds` — true of the defaults 60 and
3600), when `K ≥ 1` concurrent callers invoke `_ensure_valid_token`
simultaneously, then under every schedule in which all callers complete,
exactly one regeneration executes, the regenerating caller is unique, every
other caller blocks on the lock, observes the refreshed state on the
double-check and returns without regenerating, and afterwards the token is
not stale. -/
theorem single_flight_refresh (K : Nat) (now th ex exp0 : Int)
    (sched : List (Fin K)) (hK : 0 < K)
    (hstale : now + th ≥ exp0) (hlt : th < ex)
    (hdone : ∀ i, ((sched_run now th ex (init_cfg K exp0) sched).phase i).isDone
      = true) :
    (sched_run now th ex (init_cfg K exp0) sched).regens = 1 ∧
    (∃ w, (sched_run now th ex (init_cfg K exp0) sched).phase w = .done true ∧
      ∀ i, i ≠ w →
        (sched_run now th ex (init_cfg K exp0) sched).phase i = .done false) ∧
    needs_refresh now th
      (sched_run now th ex (init_cfg K exp0) sched).token_exp = false := by
  have hinv := flight_inv_run now th ex exp0 hstale hlt
    (flight_inv_init K now th ex exp0) sched
  set c := sched_run now th ex (init_cfg K exp0) sched with hc
  obtain ⟨-, hcase⟩ := hinv
  rcases hcase with ⟨-, -, hph⟩ | ⟨h1, hexp, w, hw, hother⟩
  · exfalso
    rcases hph ⟨0, hK⟩ with h | h | h <;>
      · have hd := hdone ⟨0, hK⟩
        rw [h] at hd
        simp [Phase.isDone] at hd
  · have hwdone : c.phase w = .done true := by
      rcases hw with h | h
      · have hd := hdone w
        rw [h] at hd
        simp [Phase.isDone] at hd
      · exact h
    refine ⟨h1, ⟨w, hwdone, ?_⟩, ?_⟩
    · intro i hiw
      rcases hother i hiw with h | h | h | h
      · have hd := hdone i
        rw [h] at hd
        simp [Phase.isDone] at hd
      · have hd := hdone i
        rw [h] at hd
        simp [Phase.isDone] at hd
      · have hd := hdone i
        rw [h] at hd
        simp [Phase.isDone] at hd
      · exact h
    · rw [hexp]
      simp only [needs_refresh, decide_eq_false_iff_not]
      omega

theorem single_flight_refresh_witness :
    (sched_run 0 0 10 (init_cfg 2 0) [0, 0, 0, 0, 1, 1, 1, 1]).regens = 1 ∧
    (∃ w, (sched_run 0 0 10 (init_cfg 2 0)
        [0, 0, 0, 0, 1, 1, 1, 1]).phase w = .done true ∧
      ∀ i, i ≠ w → (sched_run 0 0 10 (init_cfg 2 0)
        [0, 0, 0, 0, 1, 1, 1, 1]).phase i = .done false) ∧
    needs_refresh 0 0 (sched_run 0 0 10 (init_cfg 2 0)
      [0, 0, 0, 0, 1, 1, 1, 1]).token_exp = false :=
  single_flight_refresh 2 0 0 10 0 [0, 0, 0, 0, 1, 1, 1, 1]
    (by decide) (by decide) (by decide) (by decide)

/-- C1 (counterexample): a wrapper instance with refresh threshold 2 and
token validity 1 second (threshold ≥ expiry, both accepted by the
constructor), stale at time 0.  Two concurrent callers both complete under
the schedule below, yet TWO regenerations execute and the token is stale
afterwards — contradicting "exactly one regeneration executes" and
"afterwards all K callers observe the token as not stale" as claimed for
every wrapper instance whose token is stale. -/
theorem single_flight_refresh_cex :
    ((0 : Int) + 2 ≥ 0) ∧
    (∀ i, ((sched_run 0 2 1 (init_cfg 2 0)
      [0, 0, 0, 0, 1, 1, 1, 1]).phase i).isDone = true) ∧
    (sched_run 0 2 1 (init_cfg 2 0) [0, 0, 0, 0, 1, 1, 1, 1]).regens = 2 ∧
    needs_refresh 0 2
      (sched_run 0 2 1 (init_cfg 2 0) [0, 0, 0, 0, 1, 1, 1, 1]).token_exp
      = true := by
  decide

/-! ## TokenRefreshProxy

Embedding of src/supabase_scoped_clients/infrastructure/proxy.py.  Runtime
values are modelled by `RVal`; one token manager is shared by the whole proxy
tree (the source always passes the same `token_manager` on), and its nature
is a parameter `M : Bool` of the call semantics — `true` for an asynchronous
manager (`inspect.iscoroutinefunction(token_manager.ensure_valid_token)`),
`false` for a synchronous one. -/

inductive RVal where
  /-- A value of one of the `_PRIMITIVES` classes (str, int, float, bool,
  bytes, NoneType, list, dict, tuple, set), tagged for identity. -/
  | prim (id : Nat)
  /-- Any other non-callable object: its attribute table. -/
  | obj (attrs : String → Option RVal)
  /-- A plain callable and the value it returns when invoked;
  `is_coroutine` is `inspect.iscoroutinefunction`. -/
  | fn (is_coroutine : Bool) (ret : RVal)
  /-- A closure produced by `TokenRefreshProxy._wrap_callable`:
  `async_wrapper` (itself a coroutine function) when `is_coroutine`,
  `sync_wrapper` otherwise. -/
  | wrapped (is_coroutine : Bool) (inner : RVal)
  /-- `TokenRefreshProxy(target, token_manager)`. -/
  | proxy (target : RVal)

/-- Python `isinstance(v, _PRIMITIVES)` (proxy.py line 8). -/
def is_primitive_val : RVal → Bool
  | .prim _ => true
  | _ => false

/-- Python `callable(v)`. -/
def is_callable_val : RVal → Bool
  | .fn _ _ => true
  | .wrapped _ _ => true
  | _ => false

/-- `inspect.iscoroutinefunction(v)`. -/
def is_coroutine_fn : RVal → Bool
  | .fn a _ => a
  | .wrapped a _ => a
  | _ => false

/-- The body of `TokenRefreshProxy.__getattr__` (proxy.py lines 52-63) after
`attr = getattr(target, name)`: callables go through `_wrap_callable`,
primitives are returned unchanged, anything else is re-proxied with the same
token manager. -/
def proxy_wrap_attr (attr : RVal) : RVal :=
  if is_callable_val attr then .wrapped (is_coroutine_fn attr) attr
  else if is_primitive_val attr then attr
  else .proxy attr

/-- `getattr(v, name)`: on a proxy this is `TokenRefreshProxy.__getattr__`
(fetch from the target — recursively a proxy access if the target is itself a
proxy — then wrap); on a plain object it is the raw attribute. -/
def getattr_val : RVal → String → Option RVal
  | .proxy t, name => (getattr_val t name).map proxy_wrap_attr
  | .obj attrs, name => attrs name
  | _, _ => none

/-- Events observable during a call: `ensure` is an invocation of
`token_manager.ensure_valid_token` (plain or awaited), `invoke` the execution
of an original plain callable. -/
inductive CallEvent where
  | ensure
  | invoke
deriving DecidableEq, Repr

/-- Calling a callable value under manager nature `M`
(`TokenRefreshProxy._wrap_callable`, proxy.py lines 65-90): a plain callable
just runs; `async_wrapper` awaits the validity check only if the manager is
asynchronous, `sync_wrapper` calls it only if the manager is synchronous;
then the inner callable runs and a non-primitive result is wrapped in a new
proxy sharing the same manager.  Returns the result and the event trace, in
order. -/
def call_val (M : Bool) : RVal → Option (RVal × List CallEvent)
  | .fn _ ret => some (ret, [.invoke])
  | .wrapped is_coro inner =>
      match call_val M inner with
      | none => none
      | some (r, tr) =>
          let pre : List CallEvent :=
            if is_coro then (if M then [.ensure] else [])
            else (if M then [] else [.ensure])
          let r' := if is_primitive_val r then r else .proxy r
          some (r', pre ++ tr)
  | _ => none

/-- Erase proxy layers around a value. -/
def strip_proxies : RVal → RVal
  | .proxy t => strip_proxies t
  | v => v

/-- C8 (counterexample): with a synchronous token manager, an asynchronous
callable attribute reached through the proxy (here attribute `"m"` of the
wrapped object) is wrapped into `async_wrapper`, and calling it runs the
original callable with NO `ensure_valid_token` invocation at all — the trace
is `[invoke]` — contradicting "for every callable attribute ... the wrapped
callable invokes the token manager's ensure_valid_token before invoking the
original callable". -/
theorem proxy_callable_guard_cex :
    getattr_val
        (.proxy (.obj (fun n => if n = "m" then some (.fn true (.prim 0)) else none)))
        "m" = some (.wrapped true (.fn true (.prim 0))) ∧
    call_val false (.wrapped true (.fn true (.prim 0))) =
      some (.prim 0, [.invoke]) := by
  constructor <;> rfl

/-- C8 (amended): for a callable attribute wrapped by the proxy, the wrapped
callable invokes `ensure_valid_token` before the original callable exactly
when the callable's nature matches the manager's — `sync_wrapper` checks only
under a synchronous manager, `async_wrapper` awaits the check only under an
asynchronous manager; in the two mismatched combinations no validity check
happens.  In all cases the original callable's non-primitive return value is
wrapped in a proxy sharing the same token manager, and a primitive return
value is passed through unchanged. -/
theorem proxy_callable_guard (M a : Bool) (r : RVal) :
    proxy_wrap_attr (.fn a r) = .wrapped a (.fn a r) ∧
    call_val M (.wrapped a (.fn a r)) =
      some ((if is_primitive_val r then r else .proxy r),
        (if a = M then [CallEvent.ensure] else []) ++ [CallEvent.invoke]) := by
  constructor
  · rfl
  · cases a <;> cases M <;> simp [call_val]

/-- C9 (counterexample): wrapping an already-wrapped client is observably
different from wrapping it once.  For a plain object with a synchronous
method `"m"` and a synchronous manager: through one proxy the call to `m`
performs one validity check (trace `[ensure, invoke]`), through the
double-wrapped proxy the attribute is wrapped twice and the same call
performs TWO validity checks (trace `[ensure, ensure, invoke]`) — a double
check the claim rules out. -/
theorem proxy_idempotent_cex :
    getattr_val
        (.proxy (.obj (fun n => if n = "m" then some (.fn false (.prim 0)) else none)))
        "m" = some (.wrapped false (.fn false (.prim 0))) ∧
    getattr_val
        (.proxy (.proxy (.obj (fun n => if n = "m" then some (.fn false (.prim 0)) else none))))
        "m" = some (.wrapped false (.wrapped false (.fn false (.prim 0)))) ∧
    call_val false (.wrapped false (.fn false (.prim 0))) =
      some (.prim 0, [.ensure, .invoke]) ∧
    call_val false (.wrapped false (.wrapped false (.fn false (.prim 0)))) =
      some (.prim 0, [.ensure, .ensure, .invoke]) := by
  refine ⟨rfl, rfl, rfl, rfl⟩

/-- C9 (amended): wrapping is not idempotent in effect.  Each extra wrapping
layer around a callable adds one more validity-check opportunity per call:
the doubly wrapped callable produces the guard prefix twice (two checks when
the callable's nature matches the manager's, zero otherwise), where the
singly wrapped one produces it once.  The returned values agree up to
stripping proxy layers: a primitive result is identical, a non-primitive
result just carries one extra proxy layer. -/
theorem proxy_double_wrap (M a : Bool) (r : RVal) :
    call_val M (proxy_wrap_attr (.fn a r)) =
      some ((if is_primitive_val r then r else .proxy r),
        (if a = M then [CallEvent.ensure] else []) ++ [CallEvent.invoke]) ∧
    call_val M (proxy_wrap_attr (proxy_wrap_attr (.fn a r))) =
      some ((if is_primitive_val r then r else .proxy (.proxy r)),
        (if a = M then [CallEvent.ensure] else []) ++
          ((if a = M then [CallEvent.ensure] else []) ++ [CallEvent.invoke])) ∧
    strip_proxies (if is_primitive_val r then r else RVal.proxy (.proxy r)) =
      strip_proxies (if is_primitive_val r then r else RVal.proxy r) := by
  refine ⟨?_, ?_, ?_⟩
  · cases a <;> cases M <;> simp [proxy_wrap_attr, is_callable_val,
      is_coroutine_fn, call_val]
  · cases a <;> cases M <;>
      cases hr : is_primitive_val r <;>
        simp [proxy_wrap_attr, is_callable_val, is_coroutine_fn, call_val,
          hr, show ∀ t : RVal, is_primitive_val t.proxy = false from fun _ => rfl]
  · cases hr : is_primitive_val r
    · simp [hr, strip_proxies]
    · simp [hr]

/-! ## Claims on the credential minter -/

/-- C4: for every custom_claims mapping containing the keys `sub`, `role` or
`aud`, the token produced by `generate_token` decodes to claims whose `sub`,
`role` and `aud` equal the explicitly requested user id, the requested role,
and the fixed audience "authenticated" — never the values supplied in
custom_claims: the source applies custom claims first and then overwrites
with the required claims. -/
theorem override_protection (config : Config) (user_id role : String)
    (expiry_seconds : Int) (custom_claims : Payload) (iat : Int)
    (h1 : is_blank user_id = false) (h2 : 0 < expiry_seconds)
    (hc : (dict_get custom_claims "sub").isSome = true ∨
      (dict_get custom_claims "role").isSome = true ∨
      (dict_get custom_claims "aud").isSome = true) :
    ∃ p, generate_token config user_id role expiry_seconds custom_claims iat
        = .ok p ∧
      dict_get p "sub" = some (.str user_id) ∧
      dict_get p "role" = some (.str role) ∧
      dict_get p "aud" = some (.str "authenticated") := by
  obtain ⟨p, hok, hs, hr, ha, -, -, -⟩ :=
    generate_token_required_claims config user_id role expiry_seconds
      custom_claims iat h1 h2
  exact ⟨p, hok, hs, hr, ha⟩

theorem override_protection_witness :
    ∃ p, generate_token ⟨"https://example.com", "anon-key", "jwt-secret"⟩
        "user-1" "authenticated" 3600
        [("sub", .str "evil"), ("role", .str "service_role"),
         ("aud", .str "other")] 1000
        = .ok p ∧
      dict_get p "sub" = some (.str "user-1") ∧
      dict_get p "role" = some (.str "authenticated") ∧
      dict_get p "aud" = some (.str "authenticated") :=
  override_protection ⟨"https://example.com", "anon-key", "jwt-secret"⟩
    "user-1" "authenticated" 3600
    [("sub", .str "evil"), ("role", .str "service_role"), ("aud", .str "other")]
    1000 (by decide) (by decide) (Or.inl (by decide))

/-- C5: for every non-blank subject and strictly positive expiry,
`generate_token` succeeds and the decoded payload satisfies
`sub = subject`, `role` = the requested role, `aud = "authenticated"`,
`iss` = the configured base URL followed by "/auth/v1", and
`exp = iat + expiry_seconds`. -/
theorem mint_postcondition (config : Config) (user_id role : String)
    (expiry_seconds : Int) (custom_claims : Payload) (iat : Int)
    (h1 : is_blank user_id = false) (h2 : 0 < expiry_seconds) :
    ∃ p, generate_token config user_id role expiry_seconds custom_claims iat
        = .ok p ∧
      dict_get p "sub" = some (.str user_id) ∧
      dict_get p "role" = some (.str role) ∧
      dict_get p "aud" = some (.str "authenticated") ∧
      dict_get p "iss" = some (.str (config.supabase_url ++ "/auth/v1")) ∧
      dict_get p "iat" = some (.int iat) ∧
      dict_get p "exp" = some (.int (iat + expiry_seconds)) :=
  generate_token_required_claims config user_id role expiry_seconds
    custom_claims iat h1 h2

theorem mint_postcondition_witness :
    ∃ p, generate_token ⟨"https://example.com", "anon-key", "jwt-secret"⟩
        "u1" "authenticated" 3600 [] 1000 = .ok p ∧
      dict_get p "sub" = some (.str "u1") ∧
      dict_get p "role" = some (.str "authenticated") ∧
      dict_get p "aud" = some (.str "authenticated") ∧
      dict_get p "iss" = some (.str ("https://example.com" ++ "/auth/v1")) ∧
      dict_get p "iat" = some (.int 1000) ∧
      dict_get p "exp" = some (.int (1000 + 3600)) :=
  mint_postcondition ⟨"https://example.com", "anon-key", "jwt-secret"⟩
    "u1" "authenticated" 3600 [] 1000 (by decide) (by decide)

/-- C6: `generate_token` fails with `TokenError` (and produces no token) for
the empty subject, for an all-whitespace subject, and for every
`expiry_seconds ≤ 0`, including the boundary cases 0 and -1. -/
theorem mint_input_validation (config : Config) (role : String)
    (custom_claims : Payload) (iat : Int) (e : Int) (user_id : String) :
    generate_token config "" role e custom_claims iat
      = .error (.tokenError "user_id cannot be empty") ∧
    generate_token config "   " role e custom_claims iat
      = .error (.tokenError "user_id cannot be empty") ∧
    (∃ m, generate_token config user_id role 0 custom_claims iat
      = .error (.tokenError m)) ∧
    (∃ m, generate_token config user_id role (-1) custom_claims iat
      = .error (.tokenError m)) ∧
    (e ≤ 0 → ∃ m, generate_token config user_id role e custom_claims iat
      = .error (.tokenError m)) := by
  have hempty : is_blank "" = true := by decide
  have hws : is_blank "   " = true := by decide
  refine ⟨by simp [generate_token, hempty], by simp [generate_token, hws],
    ?_, ?_, ?_⟩
  · cases hb : is_blank user_id
    · exact ⟨"expiry must be positive", by simp [generate_token, hb]⟩
    · exact ⟨"user_id cannot be empty", by simp [generate_token, hb]⟩
  · cases hb : is_blank user_id
    · refine ⟨"expiry must be positive", ?_⟩
      have : (-1 : Int) ≤ 0 := by omega
      simp [generate_token, hb, this]
    · exact ⟨"user_id cannot be empty", by simp [generate_token, hb]⟩
  · intro he
    cases hb : is_blank user_id
    · exact ⟨"expiry must be positive", by simp [generate_token, hb, he]⟩
    · exact ⟨"user_id cannot be empty", by simp [generate_token, hb]⟩

theorem mint_input_validation_witness :
    ∃ m, generate_token ⟨"https://example.com", "anon-key", "jwt-secret"⟩
      "u1" "authenticated" (-5) [] 0 = .error (.tokenError m) :=
  (mint_input_validation ⟨"https://example.com", "anon-key", "jwt-secret"⟩
    "authenticated" [] 0 (-5) "u1").2.2.2.2 (by decide)

/-- C10: override protection extends to the reserved keys `iss`, `iat` and
`exp` — for every custom_claims mapping, the decoded token's `iss`, `iat`
and `exp` equal the derived values (configured base URL + "/auth/v1", the
generation timestamp, and the generation timestamp plus `expiry_seconds`),
regardless of what custom_claims contained for these keys. -/
theorem reserved_claims_protected (config : Config) (user_id role : String)
    (expiry_seconds : Int) (custom_claims : Payload) (iat : Int)
    (h1 : is_blank user_id = false) (h2 : 0 < expiry_seconds) :
    ∃ p, generate_token config user_id role expiry_seconds custom_claims iat
        = .ok p ∧
      dict_get p "iss" = some (.str (config.supabase_url ++ "/auth/v1")) ∧
      dict_get p "iat" = some (.int iat) ∧
      dict_get p "exp" = some (.int (iat + expiry_seconds)) := by
  obtain ⟨p, hok, -, -, -, hi, hia, he⟩ :=
    generate_token_required_claims config user_id role expiry_seconds
      custom_claims iat h1 h2
  exact ⟨p, hok, hi, hia, he⟩

theorem reserved_claims_protected_witness :
    ∃ p, generate_token ⟨"https://example.com", "anon-key", "jwt-secret"⟩
        "user-2" "authenticated" 60
        [("iss", .str "https://evil.example"), ("iat", .int 0),
         ("exp", .int 999999)] 500
        = .ok p ∧
      dict_get p "iss" = some (.str ("https://example.com" ++ "/auth/v1")) ∧
      dict_get p "iat" = some (.int 500) ∧
      dict_get p "exp" = some (.int (500 + 60)) :=
  reserved_claims_protected ⟨"https://example.com", "anon-key", "jwt-secret"⟩
    "user-2" "authenticated" 60
    [("iss", .str "https://evil.example"), ("iat", .int 0),
     ("exp", .int 999999)] 500 (by decide) (by decide)
